import Mathlib

/-!
Verification development for the configuration-synthesis core of the
nginx ingress configuration validator: a shallow embedding of the Go
source files (controller.go, endpoints.go, main.go, types.go) together
with theorems settling the specification claims.
-/

namespace IngressCfg

/-- Protocol of a Kubernetes service or slice port (corev1.Protocol). -/
inductive Protocol where
  | TCP
  | UDP
  | SCTP
deriving DecidableEq

/-- Go intstr.IntOrString: either a numeric port or a named/string port. -/
inductive IntOrString where
  | int (n : Int)
  | str (s : String)
deriving DecidableEq

/-- Go strconv.Atoi: optional sign, decimal digits, error on empty input,
non-digit characters, or values outside the signed 64-bit range. -/
def goAtoi (s : String) : Option Int :=
  let parse : Bool → List Char → Option Int := fun neg digits =>
    if digits.isEmpty then none
    else if digits.all (fun c => c.isDigit) then
      let n : Nat := digits.foldl (fun acc c => acc * 10 + (c.toNat - 48)) 0
      let v : Int := if neg then -(n : Int) else (n : Int)
      if v < -(2 ^ 63) ∨ v > 2 ^ 63 - 1 then none else some v
    else none
  match s.data with
  | '-' :: rest => parse true rest
  | '+' :: rest => parse false rest
  | rest => parse false rest

/-- Go int32 conversion (two's-complement truncation). -/
def toInt32 (n : Int) : Int := (n + 2 ^ 31) % 2 ^ 32 - 2 ^ 31

/-- Whether the IntOrString holds a numeric value (intstr.Int type tag). -/
def IntOrString.isInt : IntOrString → Bool
  | .int _ => true
  | .str _ => false

/-- The IntVal field of intstr.IntOrString (zero when the string form is held). -/
def IntOrString.intVal : IntOrString → Int
  | .int n => n
  | .str _ => 0

/-- Go intstr IntValue(): the int value, or Atoi of the string form
ignoring the error (hence 0 when the string does not parse). -/
def IntOrString.intValue : IntOrString → Int
  | .int n => n
  | .str s => (goAtoi s).getD 0

/-- A port declared by a Kubernetes service (corev1.ServicePort). -/
structure ServicePort where
  name : String
  port : Int
  protocol : Protocol
  targetPort : IntOrString
deriving DecidableEq

/-- The type of a Kubernetes service; the code only distinguishes ExternalName. -/
inductive ServiceType where
  | clusterIP
  | nodePort
  | loadBalancer
  | externalName
deriving DecidableEq

/-- The slice of a Kubernetes service the code reads: metadata
(namespace, name) and spec (type, external name, traffic distribution,
declared ports). -/
structure Service where
  ns : String
  name : String
  serviceType : ServiceType
  externalName : String
  trafficDistribution : Option String
  ports : List ServicePort
deriving DecidableEq

/-- corev1.ServiceTrafficDistributionPreferClose. -/
def serviceTrafficDistributionPreferClose : String := "PreferClose"

/-- k8s MetaNamespaceKey: namespace/name. -/
def Service.key (s : Service) : String := s.ns ++ "/" ++ s.name

/-- A port entry of a discoveryv1.EndpointSlice. The source dereferences
the name, port and protocol pointers, so they are modelled as present. -/
structure EndpointPort where
  name : String
  port : Int
  protocol : Protocol
deriving DecidableEq

/-- discoveryv1.ForZone. -/
structure ForZone where
  name : String
deriving DecidableEq

/-- discoveryv1.EndpointHints. -/
structure EndpointHints where
  forZones : List ForZone
deriving DecidableEq

/-- discoveryv1.EndpointConditions; Ready is a nullable bool. -/
structure EndpointConditions where
  ready : Option Bool
deriving DecidableEq

/-- One endpoint of an EndpointSlice. -/
structure SliceEndpoint where
  addresses : List String
  conditions : EndpointConditions
  hints : Option EndpointHints
  targetRef : Option String
deriving DecidableEq

/-- discoveryv1.EndpointSlice: declared ports plus endpoints. -/
structure EndpointSlice where
  ports : List EndpointPort
  endpoints : List SliceEndpoint
deriving DecidableEq

/-- The Endpoint type of types.go: address, port (as text), and an
opaque reference to the target object. -/
structure Endpoint where
  address : String
  port : String
  target : Option String
deriving DecidableEq

/-- Library collaborators of endpoints.go that are outside this
repository: net.ParseIP (abstracted to: does the string parse as an IP,
and if so is it loopback) and validation.IsDNS1123Subdomain (abstracted
to: does validation succeed). -/
structure NetDeps where
  parseIP : String → Option Bool
  isDNS1123Subdomain : String → Bool

/-- The zone value meaning that no preferred zone was given. -/
def emptyZone : String := ""

/-- The root path literal of main.go. -/
def rootLocation : String := "/"

/-- Modelled from the spec: the reserved name under which the default
Backend is seeded (the constant defUpstreamName is declared outside src/). -/
def defUpstreamName : String := "upstream-default-backend"

/-- net.JoinHostPort: brackets the host when it contains a colon (the
character test is on the character list of the string). -/
def joinHostPort (host port : String) : String :=
  if host.data.contains ':' then "[" ++ host ++ "]:" ++ port else host ++ ":" ++ port

/-- Go strings.TrimSuffix with suffix "." (removes one trailing dot). -/
def trimSuffixDot (s : String) : String :=
  if s.data.getLast? = some '.' then String.mk s.data.dropLast else s

/-- Candidate target ports contributed by one EndpointSlice
(endpoints.go lines 61-88): if the slice declares no ports and the
service target port is numeric, that number; otherwise each slice port
matching the protocol whose name matches (an unnamed service port
matches any slice port), falling back to the numeric target port. -/
def slicePorts (port : ServicePort) (proto : Protocol) (eps : EndpointSlice) : List Int :=
  if eps.ports.isEmpty ∧ port.targetPort.isInt then [port.targetPort.intVal]
  else
    eps.ports.foldl (fun acc epPort =>
      if epPort.protocol ≠ proto then acc
      else
        let tp : Int :=
          if port.name = "" then epPort.port
          else if port.name = epPort.name then epPort.port
          else 0
        let tp : Int := if tp = 0 ∧ port.targetPort.isInt then port.targetPort.intVal else tp
        if tp = 0 then acc else acc ++ [tp]) []

/-- Whether an endpoint carries a hint for the given zone (the source
dereferences ep.Hints only on paths where it is non-nil; a missing hint
yields false here). -/
def endpointHasZone (zone : String) (ep : SliceEndpoint) : Bool :=
  match ep.hints with
  | none => false
  | some h => h.forZones.any (fun z => z.name = zone)

/-- The per-slice decision whether zone filtering applies
(endpoints.go lines 89-123): a preferred zone must be given; under
prefer-close traffic distribution some endpoint of this slice must be
hinted for the zone; and every endpoint of this slice must carry at
least one zone hint. -/
def sliceUseTopologyHints (useTrafficDistribution : Bool) (zone : String) (eps : EndpointSlice) : Bool :=
  if zone = emptyZone then false
  else
    let u := true
    let u := if useTrafficDistribution ∧ ¬ eps.endpoints.any (endpointHasZone zone) then false else u
    if eps.endpoints.any (fun ep =>
        match ep.hints with
        | none => true
        | some h => h.forZones.isEmpty) then false
    else u

/-- Accumulator of the emission loop: the output list plus the set of
already-emitted host:port keys (the processedUpstreamServers map). -/
structure DedupState where
  upsServers : List Endpoint
  processed : List String
deriving DecidableEq

/-- Emission of one address for one candidate port (endpoints.go lines
143-157): skip when the joined host:port key was already emitted. -/
def emitAddress (epPort : Int) (target : Option String) (st : DedupState) (addr : String) : DedupState :=
  let hostPort := joinHostPort addr (toString epPort)
  if st.processed.contains hostPort then st
  else
    { upsServers := st.upsServers ++ [{ address := addr, port := toString epPort, target := target }],
      processed := st.processed ++ [hostPort] }

/-- Emission of one slice endpoint (endpoints.go lines 125-158): skip
endpoints whose Ready condition is explicitly false, apply the zone
filter when active, then emit every (port, address) combination. -/
def emitEndpoint (ports : List Int) (useHints : Bool) (zone : String) (st : DedupState) (ep : SliceEndpoint) : DedupState :=
  if ep.conditions.ready = some false then st
  else
    let epHasZone := if useHints then endpointHasZone zone ep else false
    if useHints ∧ ¬ epHasZone then st
    else ports.foldl (fun st1 p => ep.addresses.foldl (emitAddress p ep.targetRef) st1) st

/-- Processing of one EndpointSlice: compute candidate ports and the
per-slice zone-filter decision, then emit its endpoints. -/
def processSlice (port : ServicePort) (proto : Protocol) (useTrafficDistribution : Bool) (zone : String)
    (st : DedupState) (eps : EndpointSlice) : DedupState :=
  let ports := slicePorts port proto eps
  let useHints := sliceUseTopologyHints useTrafficDistribution zone eps
  eps.endpoints.foldl (emitEndpoint ports useHints zone) st

/-- getEndpointsFromSlices of endpoints.go: resolve a service and target
port to a deduplicated endpoint list; ExternalName services yield one
synthetic endpoint after validation; slice-lookup failure yields the
empty list. -/
def getEndpointsFromSlices (deps : NetDeps) (s : Option Service) (port : Option ServicePort)
    (proto : Protocol) (zoneForHints : String)
    (getServiceEndpointsSlices : String → Except String (List EndpointSlice)) : List Endpoint :=
  match s, port with
  | none, _ => []
  | some _, none => []
  | some s, some port =>
    let useTrafficDistribution := s.trafficDistribution = some serviceTrafficDistributionPreferClose
    if s.serviceType = ServiceType.externalName then
      if s.externalName = "localhost" ∨ (deps.parseIP s.externalName).getD false then []
      else
        let targetPort := port.targetPort.intValue
        if (deps.parseIP s.externalName).isNone ∧
            ¬ deps.isDNS1123Subdomain (trimSuffixDot s.externalName) then []
        else [{ address := s.externalName, port := toString targetPort, target := none }]
    else
      match getServiceEndpointsSlices s.key with
      | .error _ => []
      | .ok epss =>
        (epss.foldl (processSlice port proto useTrafficDistribution zoneForHints) ⟨[], []⟩).upsServers

/-- networking.PathType; the code distinguishes Exact and Prefix. -/
inductive PathType where
  | exact
  | prefixT
  | implementationSpecific
deriving DecidableEq

/-- rewrite.Config subset read by the embedded code: the rewrite target
and the use-regex flag. -/
structure RewriteCfg where
  target : String
  useRegex : Bool
deriving DecidableEq

/-- redirect.Config subset read by the embedded code: the from-to-www flag. -/
structure RedirectCfg where
  fromToWWW : Bool
deriving DecidableEq

/-- The pre-parsed per-ingress annotation settings the embedded code
reads: the stream snippet, rewrite and redirect settings, and the
per-location default-backend override service. -/
structure IngressAnns where
  streamSnippet : String
  rewrite : RewriteCfg
  redirect : RedirectCfg
  defaultBackend : Option Service
deriving DecidableEq

/-- An ingress as consumed here: its key (namespace, name) and its
pre-parsed annotations. -/
structure Ingress where
  ns : String
  name : String
  parsedAnns : IngressAnns
deriving DecidableEq

/-- The Location type of types.go, restricted to the fields read or
written by the embedded passes. The remaining annotation-derived fields
are carried by record copy exactly as the source carries them. -/
structure Location where
  path : String
  pathType : Option PathType
  isDefBackend : Bool
  ingress : Option Ingress
  ingressPath : String
  backend : String
  service : Option Service
  port : IntOrString
  rewrite : RewriteCfg
  redirect : RedirectCfg
  defaultBackend : Option Service
  defaultBackendUpstreamName : String
deriving DecidableEq

/-- The Server type of types.go, restricted to the fields read or
written by the embedded passes. -/
structure Server where
  hostname : String
  sslPassthrough : Bool
  redirectFromToWWW : Bool
  aliases : List String
  locations : List Location
deriving DecidableEq

/-- The Backend type of types.go, restricted to the fields read or
written by the embedded passes; DeepCopy is record copy, which preserves
every modelled field just as the generated deep copy does. -/
structure Backend where
  name : String
  service : Option Service
  port : IntOrString
  sslPassthrough : Bool
  endpoints : List Endpoint
  noServer : Bool
deriving DecidableEq

/-- Modelled from the spec: locationApplyAnnotations (declared outside
src/) folds the pre-parsed annotation settings of the ingress into the
location; for the settings modelled here these are the rewrite and
redirect configurations and the per-location default-backend override. -/
def locationApplyAnnotations (loc : Location) (anns : IngressAnns) : Location :=
  { loc with
    rewrite := anns.rewrite
    redirect := anns.redirect
    defaultBackend := anns.defaultBackend }

/-- Outcome of the location-scan loop of getBackendServers (controller.go
lines 238-274): append a new location, ignore the contribution, or
overwrite an existing location in place. -/
inductive MergeCase where
  | addCase
  | ignoreCase
  | overwriteCase
deriving DecidableEq

/-- The scan over the existing locations of a server (controller.go lines
239-274): it stops at the first location with the new path; a different
path-type keeps addLoc true, a non-default backend ignores the
contribution, a default backend is overwritten in place by ov. -/
def mergeScan (p : String) (pt : Option PathType) (ov : Location → Location) :
    List Location → List Location × MergeCase
  | [] => ([], MergeCase.addCase)
  | l :: rest =>
    if l.path ≠ p then
      (l :: (mergeScan p pt ov rest).1, (mergeScan p pt ov rest).2)
    else if l.pathType ≠ pt then (l :: rest, MergeCase.addCase)
    else if ¬ l.isDefBackend then (l :: rest, MergeCase.ignoreCase)
    else (ov l :: rest, MergeCase.overwriteCase)

/-- The in-place overwrite of a default-backend location by a later
contribution (controller.go lines 261-267): backend, service, port and
ingress are replaced and the annotations are applied. -/
def overwriteLocation (ups : Backend) (ing : Ingress) (anns : IngressAnns) (loc : Location) : Location :=
  locationApplyAnnotations
    { loc with
      backend := ups.name
      isDefBackend := false
      port := ups.port
      service := ups.service
      ingress := some ing } anns

/-- The freshly constructed location of the addLoc branch
(controller.go lines 280-289). -/
def mergedNewLocation (nginxPath : String) (pt : Option PathType) (ups : Backend)
    (ing : Ingress) (anns : IngressAnns) : Location :=
  locationApplyAnnotations
    { path := nginxPath
      pathType := pt
      isDefBackend := false
      ingress := some ing
      ingressPath := ""
      backend := ups.name
      service := ups.service
      port := ups.port
      rewrite := { target := "", useRegex := false }
      redirect := { fromToWWW := false }
      defaultBackend := none
      defaultBackendUpstreamName := "" } anns

/-- The per-path location merge of getBackendServers (controller.go lines
233-295), after the upstream has been resolved: merge the contribution
(nginxPath, pathType, upstream ups, ingress ing with annotations anns)
into the server, appending, ignoring, or overwriting per mergeScan, and
propagating the redirect-from-to-www flag to the server when a location
was added or overwritten. -/
def mergeLocationIntoServer (server : Server) (nginxPath : String) (pt : Option PathType)
    (ups : Backend) (ing : Ingress) (anns : IngressAnns) : Server :=
  let ov : Location → Location := overwriteLocation ups ing anns
  let newLoc : Location := mergedNewLocation nginxPath pt ups ing anns
  match mergeScan nginxPath pt ov server.locations with
  | (locs, MergeCase.addCase) =>
    { server with
      locations := locs ++ [newLoc]
      redirectFromToWWW := if newLoc.redirect.fromToWWW then true else server.redirectFromToWWW }
  | (locs, MergeCase.ignoreCase) => { server with locations := locs }
  | (locs, MergeCase.overwriteCase) =>
    { server with
      locations := locs
      redirectFromToWWW := if anns.redirect.fromToWWW then true else server.redirectFromToWWW }

/-- ConfigMap as read here: its data entries. -/
structure ConfigMap where
  data : List (String × String)

/-- The listen ports of the controller configuration (the Default field
is modelled as defaultPort). -/
structure ListenPorts where
  http : Int
  https : Int
  sslProxy : Int
  health : Int
  defaultPort : Int

/-- The controller configuration fields the embedded code reads. -/
structure NginxCfg where
  defaultService : String
  tcpConfigMapName : String
  udpConfigMapName : String
  enableTopologyAwareRouting : Bool
  listenPorts : ListenPorts

/-- The read-only Store collaborator. -/
structure Store where
  getService : String → Except String Service
  getConfigMap : String → Except String ConfigMap
  getServiceEndpointsSlices : String → Except String (List EndpointSlice)

/-- The controller as the embedded functions see it: its configuration,
its store, its network library collaborators, and two helpers declared
outside src/ and modelled from the spec: zoneOfService is
getIngressPodZone (the zone of the controller pod for a service) and
defaultEndpointValue is DefaultEndpoint (the one static default
endpoint used as fallback). -/
structure Controller where
  cfg : NginxCfg
  store : Store
  deps : NetDeps
  zoneOfService : Service → String
  defaultEndpointValue : Endpoint

/-- Modelled from the spec: shouldCreateUpstreamForLocationDefaultBackend
(declared outside src/) guards the custom default-backend
materialization; per the spec it applies to each Location with a
per-location default-backend override, for the Backend the Location
references. -/
def shouldCreateUpstreamForLocationDefaultBackend (upstream : Backend) (loc : Location) : Bool :=
  upstream.name = loc.backend ∧ loc.defaultBackend.isSome

/-- Result of processing one location for one upstream in the post-merge
pass: the possibly-updated location, the cloned custom default backends
to append, and whether the enclosing server is recorded in isHTTPSfrom. -/
structure LocStepOut where
  loc : Location
  clones : List Backend
  https : Bool

/-- Endpoint resolution for a custom default-backend override
(controller.go lines 373-380): the first port of the override service,
resolved through getEndpointsFromSlices with the topology zone when
enabled. -/
def resolveCustomDefaultEndpoints (n : Controller) (dbSvc : Service) (sp : ServicePort) :
    List Endpoint :=
  let zone := if n.cfg.enableTopologyAwareRouting then n.zoneOfService dbSvc else emptyZone
  getEndpointsFromSlices n.deps (some dbSvc) (some sp) Protocol.TCP zone
    n.store.getServiceEndpointsSlices

/-- The body of the location loop of the post-merge pass of
getBackendServers (controller.go lines 362-409): locations failing the
custom default-backend guard are skipped (including the SSL-passthrough
check); otherwise the override service endpoints are resolved, a clone
backend is materialized when they are non-empty, and the SSL-passthrough
check runs against the (possibly redirected) location. -/
def processLocationForUpstream (n : Controller) (upstream : Backend) (serverPassthrough : Bool)
    (loc : Location) : LocStepOut :=
  if ¬ shouldCreateUpstreamForLocationDefaultBackend upstream loc then
    { loc := loc, clones := [], https := false }
  else
    match loc.defaultBackend with
    | none => { loc := loc, clones := [], https := false }
    | some dbSvc =>
      match dbSvc.ports with
      | [] => { loc := loc, clones := [], https := false }
      | sp :: _ =>
        let endps := resolveCustomDefaultEndpoints n dbSvc sp
        let cname := "custom-default-backend-" ++ dbSvc.ns ++ "-" ++ dbSvc.name
        let step :=
          if ¬ endps.isEmpty then
            (({ loc with
                defaultBackendUpstreamName := cname
                backend := if upstream.endpoints.isEmpty then cname else loc.backend } : Location),
             ([{ upstream with name := cname, endpoints := endps }] : List Backend))
          else (loc, ([] : List Backend))
        let loc1 := step.1
        let https :=
          if serverPassthrough then
            if loc1.path = rootLocation then
              if loc1.backend = defUpstreamName then false else true
            else false
          else false
        { loc := loc1, clones := step.2, https := https }

/-- The server loop of the post-merge pass, for one upstream: process
each location, thread the updated locations back into the server, and
collect clone backends and the isHTTPSfrom-nonempty flag. -/
def processServerForUpstream (n : Controller) (upstream : Backend) (server : Server) :
    Server × List Backend × Bool :=
  let step := server.locations.foldl
    (fun acc loc =>
      let out := processLocationForUpstream n upstream server.sslPassthrough loc
      (acc.1 ++ [out.loc], acc.2.1 ++ out.clones, acc.2.2 || out.https))
    (([] : List Location), ([] : List Backend), false)
  ({ server with locations := step.1 }, step.2.1, step.2.2)

/-- The per-upstream body of the post-merge pass (controller.go lines
353-415): the upstream itself is emitted first, the default upstream is
passed through untouched, clone backends follow, and the upstream's
SSLPassthrough flag is set when some passthrough server was recorded. -/
def processUpstream (n : Controller) (upstream : Backend) (servers : List Server) :
    List Backend × List Server :=
  if upstream.name = defUpstreamName then ([upstream], servers)
  else
    let step := servers.foldl
      (fun acc server =>
        let out := processServerForUpstream n upstream server
        (acc.1 ++ [out.1], acc.2.1 ++ out.2.1, acc.2.2 || out.2.2))
      (([] : List Server), ([] : List Backend), false)
    let upstream1 := if step.2.2 then { upstream with sslPassthrough := true } else upstream
    (upstream1 :: step.2.1, step.1)

/-- The post-merge upstream pass of getBackendServers (controller.go
lines 351-415): fold processUpstream over the upstreams, threading the
mutated servers; the final sort passes (lines 417-435) do not change
any flag and are not part of this function. -/
def postMergeUpstreamPass (n : Controller) : List Backend → List Server → List Backend × List Server
  | [], servers => ([], servers)
  | u :: rest, servers =>
    let step := processUpstream n u servers
    let tail := postMergeUpstreamPass n rest step.2
    (step.1 ++ tail.1, tail.2)

/-- getDefaultUpstream of controller.go: the default Backend; with no
configured default service or a failed lookup it holds the one static
default endpoint; otherwise the endpoints of the service's first port,
falling back to the static default endpoint when none resolve. Indexing
Spec.Ports[0] panics in Go when the resolved service declares no ports;
that abort is modelled as none. -/
def getDefaultUpstream (n : Controller) : Option Backend :=
  let upstream : Backend :=
    { name := defUpstreamName
      service := none
      port := IntOrString.int 0
      sslPassthrough := false
      endpoints := []
      noServer := false }
  if n.cfg.defaultService = "" then
    some { upstream with endpoints := [n.defaultEndpointValue] }
  else
    match n.store.getService n.cfg.defaultService with
    | .error _ => some { upstream with endpoints := [n.defaultEndpointValue] }
    | .ok svc =>
      match svc.ports with
      | [] => none
      | sp :: _ =>
        let zone := if n.cfg.enableTopologyAwareRouting then n.zoneOfService svc else emptyZone
        let endps := getEndpointsFromSlices n.deps (some svc) (some sp) Protocol.TCP zone
          n.store.getServiceEndpointsSlices
        let endps := if endps.isEmpty then [n.defaultEndpointValue] else endps
        some { upstream with service := some svc, endpoints := endps }

/-- needsRewrite of main.go: a non-empty rewrite target different from
the location path. -/
def needsRewrite (loc : Location) : Bool :=
  loc.rewrite.target ≠ "" ∧ loc.rewrite.target ≠ loc.path

/-- normalizePrefixPath of main.go: add a trailing slash to non-root
paths lacking one. -/
def normalizePrefixPath (path : String) : String :=
  if path = rootLocation then rootLocation
  else if ¬ (path.data.getLast? = some '/') then path ++ "/"
  else path

/-- The per-location body of updateServerLocations, given the paths of
the Exact locations of the whole input list. In the source the PathType
pointer is dereferenced, so a location reaching this code has a non-nil
path type. -/
def updateOneLocation (exactPaths : List String) (location : Location) : List Location :=
  if location.path = rootLocation then [location]
  else
    let location := { location with ingressPath := location.path }
    if location.pathType ≠ some PathType.prefixT then [location]
    else if needsRewrite location || location.rewrite.useRegex then [location]
    else if exactPaths.contains location.path then
      [{ location with path := normalizePrefixPath location.path }]
    else
      [{ location with path := normalizePrefixPath location.path },
       { location with pathType := some PathType.exact }]

/-- updateServerLocations of main.go: record the Exact-location paths,
then normalize each location, splitting eligible Prefix locations into a
trailing-slash Prefix location plus an Exact location at the original
path. The exactLocations map of main.go lines 261-266 is modelled by the
list of paths of Exact locations. -/
def exactPathsOf (locations : List Location) : List String :=
  (locations.filter (fun l => l.pathType = some PathType.exact)).map (fun l => l.path)

/-- updateServerLocations of main.go lines 257-311: process every
location with updateOneLocation against the Exact paths of the input. -/
def updateServerLocations (locations : List Location) : List Location :=
  locations.flatMap (updateOneLocation (exactPathsOf locations))

/-- getStreamSnippets of main.go: the non-empty stream snippets of the
ingresses, in input order. -/
def getStreamSnippets : List Ingress → List String
  | [] => []
  | i :: rest =>
    if i.parsedAnns.streamSnippet = "" then getStreamSnippets rest
    else i.parsedAnns.streamSnippet :: getStreamSnippets rest

/-- Splitting a character list at a separator character. -/
def splitOnCharAux (c : Char) : List Char → List Char → List String
  | [], acc => [String.mk acc.reverse]
  | x :: xs, acc =>
    if x = c then String.mk acc.reverse :: splitOnCharAux c xs []
    else splitOnCharAux c xs (x :: acc)

/-- Go strings.Split for a one-character separator. -/
def splitOnChar (c : Char) (s : String) : List String := splitOnCharAux c s.data []

/-- k8s ParseNameNS: split a namespace/name key at the slash, failing on
any other shape. -/
def parseNameNS (key : String) : Option (String × String) :=
  match splitOnChar '/' key with
  | [ns, name] => some (ns, name)
  | _ => none

/-- ASCII lower-casing of a string. -/
def asciiLower (s : String) : String := String.mk (s.data.map Char.toLower)

/-- Go strings.EqualFold, adequate for the ASCII literals compared here. -/
def equalFold (s t : String) : Bool := asciiLower s == asciiLower t

/-- ProxyProtocol flags of an L4 backend. -/
structure ProxyProtocol where
  decode : Bool
  encode : Bool
deriving DecidableEq

/-- L4Backend of types.go. -/
structure L4Backend where
  port : IntOrString
  name : String
  ns : String
  protocol : Protocol
  proxyProtocol : ProxyProtocol
deriving DecidableEq

/-- L4Service of types.go. -/
structure L4Service where
  port : Int
  backend : L4Backend
  endpoints : List Endpoint
  service : Option Service
deriving DecidableEq

/-- Modelled from the spec: the fixed profiler port reserved by the
controller (constant nginx.ProfilerPort declared outside src/). -/
def profilerPort : Int := 10245

/-- Modelled from the spec: the fixed status port reserved by the
controller (constant nginx.StatusPort declared outside src/). -/
def statusPort : Int := 10246

/-- Modelled from the spec: the fixed stream-admin port reserved by the
controller (constant nginx.StreamPort declared outside src/). -/
def streamPort : Int := 10247

/-- Endpoint resolution for one stream entry (main.go lines 409-443):
the port token resolves numerically against the declared service ports
first, else as a named port, filtered by protocol; the first matching
port is resolved through getEndpointsFromSlices. -/
def resolveStreamEndpoints (n : Controller) (proto : Protocol) (svc : Service)
    (svcPort : String) : List Endpoint :=
  let zone := if n.cfg.enableTopologyAwareRouting then n.zoneOfService svc else emptyZone
  match goAtoi svcPort with
  | none =>
    match svc.ports.find? (fun sp => decide (sp.name = svcPort ∧ sp.protocol = proto)) with
    | some sp => getEndpointsFromSlices n.deps (some svc) (some sp) proto zone
        n.store.getServiceEndpointsSlices
    | none => []
  | some targetPort =>
    match svc.ports.find? (fun sp => decide (sp.port = toInt32 targetPort ∧ sp.protocol = proto)) with
    | some sp => getEndpointsFromSlices n.deps (some svc) (some sp) proto zone
        n.store.getServiceEndpointsSlices
    | none => []

/-- The body of the configmap-entry loop of getStreamServices (main.go
lines 371-462): parse the external port, reject reserved ports, parse
the service reference and proxy-protocol tokens, resolve the service and
its endpoints via resolveStreamEndpoints, and drop entries with no
endpoints. -/
def processStreamEntry (n : Controller) (proto : Protocol) (reservedPorts : List Int)
    (entry : String × String) : Option L4Service :=
  match goAtoi entry.1 with
  | none => none
  | some externalPort =>
    if reservedPorts.contains externalPort then none
    else
      let nsSvcPort := splitOnChar ':' entry.2
      if nsSvcPort.length < 2 then none
      else
        let nsName := nsSvcPort.getD 0 ""
        let svcPort := nsSvcPort.getD 1 ""
        let pp : ProxyProtocol :=
          if 3 ≤ nsSvcPort.length ∧ proto = Protocol.TCP then
            { decode := equalFold (nsSvcPort.getD 2 "") "PROXY"
              encode := (nsSvcPort.length == 4) && equalFold (nsSvcPort.getD 3 "") "PROXY" }
          else { decode := false, encode := false }
        match parseNameNS nsName with
        | none => none
        | some (svcNs, svcName) =>
          match n.store.getService nsName with
          | .error _ => none
          | .ok svc =>
            let endps : List Endpoint := resolveStreamEndpoints n proto svc svcPort
            if endps.isEmpty then none
            else
              some
                { port := externalPort
                  backend :=
                    { port := IntOrString.str svcPort
                      name := svcName
                      ns := svcNs
                      protocol := proto
                      proxyProtocol := pp }
                  endpoints := endps
                  service := some svc }

/-- The reserved external ports (main.go lines 358-369): the HTTP,
HTTPS, SSL-proxy, health and default listen ports plus the fixed
profiler, status and stream ports. -/
def reservedPortsOf (n : Controller) : List Int :=
  [n.cfg.listenPorts.http, n.cfg.listenPorts.https, n.cfg.listenPorts.sslProxy,
   n.cfg.listenPorts.health, n.cfg.listenPorts.defaultPort,
   profilerPort, statusPort, streamPort]

/-- getStreamServices of main.go: read the configmap, process each entry,
and return the surviving L4 services stably sorted by external port. -/
def getStreamServices (n : Controller) (configmapName : String) (proto : Protocol) : List L4Service :=
  if configmapName = "" then []
  else
    match parseNameNS configmapName with
    | none => []
    | some _ =>
      match n.store.getConfigMap configmapName with
      | .error _ => []
      | .ok cm =>
        (cm.data.filterMap (processStreamEntry n proto (reservedPortsOf n))).mergeSort
          (fun a b => decide (a.port ≤ b.port))

/-! Concrete fixtures shared by witnesses and counterexamples. -/

/-- Network collaborators for inputs where IP parsing and DNS validation
are irrelevant. -/
def depsTrivial : NetDeps := { parseIP := fun _ => none, isDNS1123Subdomain := fun _ => true }

/-- Annotation settings holding only a stream snippet. -/
def annsOfSnippet (s : String) : IngressAnns :=
  { streamSnippet := s
    rewrite := { target := "", useRegex := false }
    redirect := { fromToWWW := false }
    defaultBackend := none }

def ingA : Ingress := { ns := "default", name := "ing-a", parsedAnns := annsOfSnippet "snippet-a" }

def ingB : Ingress := { ns := "default", name := "ing-b", parsedAnns := annsOfSnippet "snippet-b" }

/-- An unnamed service port 80 with numeric target port 80. -/
def portNum80 : ServicePort :=
  { name := "", port := 80, protocol := Protocol.TCP, targetPort := IntOrString.int 80 }

def svcPlain : Service :=
  { ns := "default", name := "svc", serviceType := ServiceType.clusterIP, externalName := ""
    trafficDistribution := none, ports := [portNum80] }

/-- A slice with one endpoint at the given address and readiness. -/
def sliceOfReady (r : Option Bool) (addr : String) : EndpointSlice :=
  { ports := []
    endpoints := [{ addresses := [addr], conditions := { ready := r }, hints := none, targetRef := none }] }

def listenPortsFix : ListenPorts :=
  { http := 80, https := 443, sslProxy := 442, health := 10254, defaultPort := 8181 }

def endpointDefaultFix : Endpoint := { address := "127.0.0.1", port := "8181", target := none }

def storeEmpty : Store :=
  { getService := fun _ => .error "no service"
    getConfigMap := fun _ => .error "no configmap"
    getServiceEndpointsSlices := fun _ => .error "no slices" }

def cfgOf (defaultService tcp udp : String) : NginxCfg :=
  { defaultService := defaultService, tcpConfigMapName := tcp, udpConfigMapName := udp
    enableTopologyAwareRouting := false, listenPorts := listenPortsFix }

def ctrlOf (cfg : NginxCfg) (store : Store) : Controller :=
  { cfg := cfg, store := store, deps := depsTrivial
    zoneOfService := fun _ => emptyZone
    defaultEndpointValue := endpointDefaultFix }

/-! C1: order sensitivity of a synthesis pass. -/

/-- C1 counterexample: the two orderings of the same two ingresses are a
permutation of one another, yet getStreamSnippets — the StreamSnippets
component of the Configuration — differs, so the output is not
byte-identical under reordering. -/
theorem C1_counterexample :
    ([ingA, ingB] : List Ingress).Perm [ingB, ingA] ∧
      getStreamSnippets [ingA, ingB] ≠ getStreamSnippets [ingB, ingA] := by
  refine ⟨?_, ?_⟩
  · decide
  · decide

/-- Helper: getStreamSnippets is the filterMap selecting non-empty
stream snippets. -/
theorem getStreamSnippets_eq_filterMap (l : List Ingress) :
    getStreamSnippets l =
      l.filterMap (fun i =>
        if i.parsedAnns.streamSnippet = "" then none else some i.parsedAnns.streamSnippet) := by
  induction l with
  | nil => rfl
  | cons i rest ih =>
    by_cases h : i.parsedAnns.streamSnippet = ""
    · simp [getStreamSnippets, h, List.filterMap_cons, ih]
    · simp [getStreamSnippets, h, List.filterMap_cons, ih]

/-- C1 (amended): a synthesis pass is not invariant under reordering of
the ingress list, because stream snippets are emitted in input order;
what holds is that a permutation of the ingresses yields a permutation
(the same multiset) of the StreamSnippets component. -/
theorem C1_stream_snippets_perm (l1 l2 : List Ingress) (h : l1.Perm l2) :
    (getStreamSnippets l1).Perm (getStreamSnippets l2) := by
  rw [getStreamSnippets_eq_filterMap, getStreamSnippets_eq_filterMap]
  exact h.filterMap _

/-- C1 witness: the amended statement at the concrete pair of orderings. -/
theorem C1_stream_snippets_perm_witness :
    (getStreamSnippets [ingA, ingB]).Perm (getStreamSnippets [ingB, ingA]) :=
  C1_stream_snippets_perm [ingA, ingB] [ingB, ingA] (by decide)

/-! C10: readiness handling of getEndpointsFromSlices. -/

/-- C10: an endpoint whose Ready condition is unset is included; only an
explicit Ready=false excludes it. For a one-endpoint slice the result is
empty exactly when readiness is explicitly false. -/
theorem C10_ready_nil_included (r : Option Bool) (addr : String) :
    getEndpointsFromSlices depsTrivial (some svcPlain) (some portNum80) Protocol.TCP emptyZone
        (fun _ => .ok [sliceOfReady r addr]) =
      if r = some false then [] else [{ address := addr, port := "80", target := none }] := by
  have h80 : toString (80 : Int) = "80" := rfl
  cases r with
  | none =>
    simp [getEndpointsFromSlices, svcPlain, processSlice, sliceOfReady, emitEndpoint,
      slicePorts, sliceUseTopologyHints, emptyZone, emitAddress, portNum80,
      IntOrString.isInt, IntOrString.intVal, serviceTrafficDistributionPreferClose, h80]
  | some b =>
    cases b with
    | false =>
      simp [getEndpointsFromSlices, svcPlain, processSlice, sliceOfReady, emitEndpoint,
        slicePorts, sliceUseTopologyHints, emptyZone, emitAddress, portNum80,
        IntOrString.isInt, IntOrString.intVal, serviceTrafficDistributionPreferClose, h80]
    | true =>
      simp [getEndpointsFromSlices, svcPlain, processSlice, sliceOfReady, emitEndpoint,
        slicePorts, sliceUseTopologyHints, emptyZone, emitAddress, portNum80,
        IntOrString.isInt, IntOrString.intVal, serviceTrafficDistributionPreferClose, h80]

/-! C4: totality of getDefaultUpstream. -/

def svcNoPorts : Service :=
  { ns := "default", name := "dsvc", serviceType := ServiceType.clusterIP, externalName := ""
    trafficDistribution := none, ports := [] }

def storePortless : Store := { storeEmpty with getService := fun _ => .ok svcNoPorts }

def ctrlPortless : Controller := ctrlOf (cfgOf "default/dsvc" "" "") storePortless

/-- C4 counterexample: with a configured default service that resolves to
a service declaring no ports, getDefaultUpstream indexes Spec.Ports[0]
and panics: the function is not total over all store states (none models
the abort). -/
theorem C4_counterexample : getDefaultUpstream ctrlPortless = none := rfl

/-- C4 (amended): whenever the configured default service, if it
resolves at all, declares at least one port, getDefaultUpstream returns
exactly one Backend with a non-empty endpoint list — covering the
no-configured-service, lookup-error, and zero-endpoint cases. -/
theorem C4_default_upstream_total (n : Controller)
    (h : ∀ svc, n.store.getService n.cfg.defaultService = .ok svc → svc.ports ≠ []) :
    ∃ b, getDefaultUpstream n = some b ∧ b.endpoints ≠ [] := by
  by_cases hd : n.cfg.defaultService = ""
  · refine ⟨⟨defUpstreamName, none, IntOrString.int 0, false, [n.defaultEndpointValue], false⟩, ?_, ?_⟩
    · simp [getDefaultUpstream, hd]
    · simp
  · cases hsv : n.store.getService n.cfg.defaultService with
    | error e =>
      refine ⟨⟨defUpstreamName, none, IntOrString.int 0, false, [n.defaultEndpointValue], false⟩, ?_, ?_⟩
      · simp [getDefaultUpstream, hd, hsv]
      · simp
    | ok svc =>
      have hp := h svc hsv
      cases hports : svc.ports with
      | nil => exact absurd hports hp
      | cons sp rest =>
        refine ⟨⟨defUpstreamName, some svc, IntOrString.int 0, false,
          (if (getEndpointsFromSlices n.deps (some svc) (some sp) Protocol.TCP
              (if n.cfg.enableTopologyAwareRouting then n.zoneOfService svc else emptyZone)
              n.store.getServiceEndpointsSlices).isEmpty then
            [n.defaultEndpointValue]
          else
            getEndpointsFromSlices n.deps (some svc) (some sp) Protocol.TCP
              (if n.cfg.enableTopologyAwareRouting then n.zoneOfService svc else emptyZone)
              n.store.getServiceEndpointsSlices), false⟩, ?_, ?_⟩
        · simp [getDefaultUpstream, hd, hsv, hports]
        · by_cases he : (getEndpointsFromSlices n.deps (some svc) (some sp) Protocol.TCP
              (if n.cfg.enableTopologyAwareRouting then n.zoneOfService svc else emptyZone)
              n.store.getServiceEndpointsSlices).isEmpty
          · simp [he]
          · simp only [he, if_false]
            intro hh
            simp only [Bool.false_eq_true, if_false] at hh
            rw [hh] at he
            exact he rfl

/-- C4 witness: the amended statement for a controller with no
configured default service. -/
theorem C4_default_upstream_total_witness :
    ∃ b, getDefaultUpstream (ctrlOf (cfgOf "" "" "") storeEmpty) = some b ∧ b.endpoints ≠ [] :=
  C4_default_upstream_total (ctrlOf (cfgOf "" "" "") storeEmpty)
    (fun svc hok => by simp [ctrlOf, storeEmpty] at hok)

/-! C8: the ExternalName branch of getEndpointsFromSlices. -/

/-- C8: for an ExternalName service the result never consults the
slices (any two slice-lookup collaborators agree) and equals the empty
list exactly when the external name is localhost, a loopback IP, or a
non-IP failing DNS-1123 validation after stripping a trailing dot;
otherwise it is the one synthetic endpoint carrying the external name
and the numeric target-port value. -/
theorem C8_externalName (deps : NetDeps) (s : Service) (port : ServicePort) (proto : Protocol)
    (zone : String) (g1 g2 : String → Except String (List EndpointSlice))
    (h : s.serviceType = ServiceType.externalName) :
    getEndpointsFromSlices deps (some s) (some port) proto zone g1 =
        getEndpointsFromSlices deps (some s) (some port) proto zone g2 ∧
      getEndpointsFromSlices deps (some s) (some port) proto zone g1 =
        (if s.externalName = "localhost" ∨ (deps.parseIP s.externalName).getD false ∨
            ((deps.parseIP s.externalName).isNone ∧
              ¬ deps.isDNS1123Subdomain (trimSuffixDot s.externalName)) then
          []
        else
          [{ address := s.externalName, port := toString port.targetPort.intValue,
             target := none }]) := by
  have hmain : ∀ g : String → Except String (List EndpointSlice),
      getEndpointsFromSlices deps (some s) (some port) proto zone g =
        (if s.externalName = "localhost" ∨ (deps.parseIP s.externalName).getD false ∨
            ((deps.parseIP s.externalName).isNone ∧
              ¬ deps.isDNS1123Subdomain (trimSuffixDot s.externalName)) then
          []
        else
          [{ address := s.externalName, port := toString port.targetPort.intValue,
             target := none }]) := by
    intro g
    simp only [getEndpointsFromSlices, h, if_true]
    split_ifs <;> tauto
  exact ⟨(hmain g1).trans (hmain g2).symm, hmain g1⟩

def svcLocalhost : Service :=
  { ns := "default", name := "ext", serviceType := ServiceType.externalName
    externalName := "localhost", trafficDistribution := none, ports := [portNum80] }

/-- C8 witness: the spec scenario ExternalName=localhost yields the
empty endpoint list. -/
theorem C8_externalName_witness :
    getEndpointsFromSlices depsTrivial (some svcLocalhost) (some portNum80) Protocol.TCP emptyZone
      storeEmpty.getServiceEndpointsSlices = [] := by
  have h := C8_externalName depsTrivial svcLocalhost portNum80 Protocol.TCP emptyZone
    storeEmpty.getServiceEndpointsSlices storeEmpty.getServiceEndpointsSlices rfl
  rw [h.2]
  simp [svcLocalhost]

/-! C3: scope of the zone-hint fail-open check. -/

/-- An endpoint hinted for one zone. -/
def epHinted (addr zone : String) : SliceEndpoint :=
  { addresses := [addr], conditions := { ready := none }
    hints := some { forZones := [{ name := zone }] }, targetRef := none }

/-- An endpoint carrying no zone hints. -/
def epUnhinted (addr : String) : SliceEndpoint :=
  { addresses := [addr], conditions := { ready := none }, hints := none, targetRef := none }

def sliceHinted : EndpointSlice :=
  { ports := [], endpoints := [epHinted "10.0.0.1" "zone-a", epHinted "10.0.0.2" "zone-b"] }

def sliceUnhinted : EndpointSlice :=
  { ports := [], endpoints := [epUnhinted "10.0.0.3"] }

def slicesMixed : List EndpointSlice := [sliceHinted, sliceUnhinted]

/-- C3 counterexample: one endpoint (10.0.0.3) lacks a zone hint, yet
zone filtering is not disabled entirely: the fully hinted slice is still
filtered to the preferred zone (10.0.0.2 is dropped), so the result is
not the full unfiltered endpoint set. -/
theorem C3_counterexample :
    (∃ eps ∈ slicesMixed, ∃ ep ∈ eps.endpoints, ep.hints = none) ∧
      getEndpointsFromSlices depsTrivial (some svcPlain) (some portNum80) Protocol.TCP "zone-a"
          (fun _ => .ok slicesMixed) =
        [{ address := "10.0.0.1", port := "80", target := none },
         { address := "10.0.0.3", port := "80", target := none }] ∧
      getEndpointsFromSlices depsTrivial (some svcPlain) (some portNum80) Protocol.TCP emptyZone
          (fun _ => .ok slicesMixed) =
        [{ address := "10.0.0.1", port := "80", target := none },
         { address := "10.0.0.2", port := "80", target := none },
         { address := "10.0.0.3", port := "80", target := none }] := by
  refine ⟨?_, ?_, ?_⟩
  · decide
  · decide
  · decide

/-- Helper: with the zone filter off, the emission of an endpoint does
not depend on the preferred zone. -/
theorem emitEndpoint_zone_irrelevant (ports : List Int) (zone zone' : String)
    (st : DedupState) (ep : SliceEndpoint) :
    emitEndpoint ports false zone st ep = emitEndpoint ports false zone' st ep := by
  simp [emitEndpoint]

/-- Helper: a slice containing an endpoint without zone hints never uses
topology hints. -/
theorem sliceUseTopologyHints_false_of_unhinted (utd : Bool) (zone : String) (eps : EndpointSlice)
    (hex : ∃ ep ∈ eps.endpoints,
      ep.hints = none ∨ ∃ hh, ep.hints = some hh ∧ hh.forZones = []) :
    sliceUseTopologyHints utd zone eps = false := by
  unfold sliceUseTopologyHints
  by_cases hz : zone = emptyZone
  · simp [hz]
  · obtain ⟨ep, hmem, hcase⟩ := hex
    have hany : (eps.endpoints.any (fun ep =>
        match ep.hints with
        | none => true
        | some h => h.forZones.isEmpty)) = true := by
      rw [List.any_eq_true]
      refine ⟨ep, hmem, ?_⟩
      rcases hcase with h1 | ⟨hh, h2, h3⟩
      · simp [h1]
      · simp [h2, h3]
    simp [hz, hany]

/-- Helper: folds of zone-insensitive emission agree. -/
theorem foldl_emit_false (ports : List Int) (zone zone' : String) :
    ∀ (l : List SliceEndpoint) (st : DedupState),
      l.foldl (emitEndpoint ports false zone) st = l.foldl (emitEndpoint ports false zone') st := by
  intro l
  induction l with
  | nil => intro st; rfl
  | cons ep rest ih =>
    intro st
    simp only [List.foldl_cons]
    rw [emitEndpoint_zone_irrelevant ports zone zone' st ep]
    exact ih _

/-- Helper: a slice containing an unhinted endpoint is processed exactly
as with no preferred zone. -/
theorem processSlice_unhinted (port : ServicePort) (proto : Protocol) (utd : Bool) (zone : String)
    (st : DedupState) (eps : EndpointSlice)
    (hex : ∃ ep ∈ eps.endpoints,
      ep.hints = none ∨ ∃ hh, ep.hints = some hh ∧ hh.forZones = []) :
    processSlice port proto utd zone st eps = processSlice port proto utd emptyZone st eps := by
  unfold processSlice
  rw [sliceUseTopologyHints_false_of_unhinted utd zone eps hex]
  have h0 : sliceUseTopologyHints utd emptyZone eps = false := by
    unfold sliceUseTopologyHints
    simp [emptyZone]
  rw [h0]
  exact foldl_emit_false _ _ _ _ _

/-- C3 (amended): the fail-open decision is made per EndpointSlice, not
across all slices; consequently when every slice contains at least one
endpoint without a zone hint, the result equals the unfiltered result
obtained with no preferred zone. -/
theorem C3_zone_fail_open_per_slice (deps : NetDeps) (s : Service) (port : ServicePort)
    (proto : Protocol) (zone : String) (g : String → Except String (List EndpointSlice))
    (hty : ¬ s.serviceType = ServiceType.externalName)
    (h : ∀ slices, g s.key = .ok slices → ∀ eps ∈ slices, ∃ ep ∈ eps.endpoints,
        ep.hints = none ∨ ∃ hh, ep.hints = some hh ∧ hh.forZones = []) :
    getEndpointsFromSlices deps (some s) (some port) proto zone g =
      getEndpointsFromSlices deps (some s) (some port) proto emptyZone g := by
  simp only [getEndpointsFromSlices, hty, if_false]
  cases hg : g s.key with
  | error e => rfl
  | ok slices =>
    have hs := h slices hg
    have main : ∀ (l : List EndpointSlice) (st : DedupState),
        (∀ eps ∈ l, ∃ ep ∈ eps.endpoints,
          ep.hints = none ∨ ∃ hh, ep.hints = some hh ∧ hh.forZones = []) →
        l.foldl (processSlice port proto
            (s.trafficDistribution = some serviceTrafficDistributionPreferClose) zone) st =
          l.foldl (processSlice port proto
            (s.trafficDistribution = some serviceTrafficDistributionPreferClose) emptyZone) st := by
      intro l
      induction l with
      | nil => intro st _; rfl
      | cons eps rest ih =>
        intro st hl
        simp only [List.foldl_cons]
        rw [processSlice_unhinted _ _ _ _ _ _ (hl eps (by simp))]
        exact ih _ (fun e he => hl e (by simp [he]))
    simp only [main slices (⟨[], []⟩ : DedupState) hs]

/-- C3 witness: with a single slice whose endpoint lacks hints, the
preferred-zone result coincides with the unfiltered result. -/
theorem C3_zone_fail_open_per_slice_witness :
    getEndpointsFromSlices depsTrivial (some svcPlain) (some portNum80) Protocol.TCP "zone-a"
        (fun _ => .ok [sliceUnhinted]) =
      getEndpointsFromSlices depsTrivial (some svcPlain) (some portNum80) Protocol.TCP emptyZone
        (fun _ => .ok [sliceUnhinted]) :=
  C3_zone_fail_open_per_slice depsTrivial svcPlain portNum80 Protocol.TCP "zone-a"
    (fun _ => .ok [sliceUnhinted]) (by decide)
    (fun slices hok => by
      injection hok with h1
      subst h1
      intro eps heps
      rw [List.mem_singleton] at heps
      subst heps
      exact ⟨epUnhinted "10.0.0.3", by decide, Or.inl rfl⟩)

/-! C7: deduplication of the endpoint list. -/

/-- The host:port identity of an emitted endpoint. -/
def endpointKey (e : Endpoint) : String := joinHostPort e.address e.port

/-- The dedup invariant: every emitted endpoint's key is recorded in the
processed set, and the emitted keys are pairwise distinct. -/
def DedupInv (st : DedupState) : Prop :=
  (∀ e ∈ st.upsServers, endpointKey e ∈ st.processed) ∧ (st.upsServers.map endpointKey).Nodup

/-- Helper: emitting one address preserves the dedup invariant. -/
theorem dedupInv_emitAddress (p : Int) (t : Option String) (st : DedupState) (a : String)
    (h : DedupInv st) : DedupInv (emitAddress p t st a) := by
  unfold emitAddress
  by_cases hc : st.processed.contains (joinHostPort a (toString p)) = true
  · rw [if_pos hc]
    exact h
  · rw [if_neg hc]
    have hnotmem : joinHostPort a (toString p) ∉ st.processed := by
      intro hmem
      exact hc (List.elem_iff.mpr hmem)
    refine ⟨?_, ?_⟩
    · intro e he
      rcases List.mem_append.mp he with h1 | h1
      · exact List.mem_append.mpr (Or.inl (h.1 e h1))
      · have he0 : e = { address := a, port := toString p, target := t } := by simpa using h1
        subst he0
        exact List.mem_append.mpr (Or.inr (by simp [endpointKey]))
    · show ((st.upsServers ++ [({ address := a, port := toString p, target := t } : Endpoint)]).map
        endpointKey).Nodup
      rw [List.map_append, List.nodup_append]
      refine ⟨h.2, by simp, ?_⟩
      intro x hx hx1
      obtain ⟨e, he, hek⟩ := List.mem_map.mp hx
      have hx0 : x = joinHostPort a (toString p) := by
        simpa [endpointKey] using hx1
      rw [hx0] at hek
      exact hnotmem (hek ▸ h.1 e he)

/-- Helper: a fold preserves any invariant its step preserves. -/
theorem foldlPreserves {σ α : Type} {P : σ → Prop} {f : σ → α → σ}
    (hf : ∀ st a, P st → P (f st a)) :
    ∀ (l : List α) (st : σ), P st → P (l.foldl f st) := by
  intro l
  induction l with
  | nil => intro st h; exact h
  | cons a rest ih =>
    intro st h
    exact ih _ (hf st a h)

/-- Helper: the dedup invariant passes through a conditional. -/
theorem dedupInv_ite (c : Prop) [Decidable c] (x y : DedupState) (hx : DedupInv x)
    (hy : DedupInv y) : DedupInv (if c then x else y) := by
  by_cases h : c
  · rw [if_pos h]
    exact hx
  · rw [if_neg h]
    exact hy

/-- Helper: emitting one endpoint preserves the dedup invariant. -/
theorem dedupInv_emitEndpoint (ports : List Int) (useHints : Bool) (zone : String)
    (st : DedupState) (ep : SliceEndpoint) (h : DedupInv st) :
    DedupInv (emitEndpoint ports useHints zone st ep) := by
  unfold emitEndpoint
  refine dedupInv_ite _ _ _ h ?_
  dsimp only
  refine dedupInv_ite _ _ _ h ?_
  refine foldlPreserves ?_ ports st h
  intro st1 p hst1
  exact foldlPreserves (fun st2 a hst2 => dedupInv_emitAddress p ep.targetRef st2 a hst2)
    ep.addresses st1 hst1

/-- Helper: processing one slice preserves the dedup invariant. -/
theorem dedupInv_processSlice (port : ServicePort) (proto : Protocol) (utd : Bool) (zone : String)
    (st : DedupState) (eps : EndpointSlice) (h : DedupInv st) :
    DedupInv (processSlice port proto utd zone st eps) := by
  unfold processSlice
  exact foldlPreserves
    (fun st1 ep hst1 =>
      dedupInv_emitEndpoint (slicePorts port proto eps) (sliceUseTopologyHints utd zone eps)
        zone st1 ep hst1)
    eps.endpoints st h

/-- C7: the endpoint list returned by getEndpointsFromSlices never
contains two entries with the same (address, port) pair, for every
service, port, zone and slice collaborator. -/
theorem C7_no_duplicate_address_port (deps : NetDeps) (s : Option Service)
    (port : Option ServicePort) (proto : Protocol) (zone : String)
    (g : String → Except String (List EndpointSlice)) :
    (getEndpointsFromSlices deps s port proto zone g).Pairwise
      (fun a b => ¬ (a.address = b.address ∧ a.port = b.port)) := by
  match s, port with
  | none, _ => simp [getEndpointsFromSlices]
  | some s, none => simp [getEndpointsFromSlices]
  | some s, some port =>
    simp only [getEndpointsFromSlices]
    by_cases hext : s.serviceType = ServiceType.externalName
    · simp only [hext, if_true]
      split
      · simp
      · split
        · simp
        · simp
    · simp only [hext, if_false]
      cases hg : g s.key with
      | error e => simp
      | ok epss =>
        have hinv : DedupInv (epss.foldl (processSlice port proto
            (s.trafficDistribution = some serviceTrafficDistributionPreferClose) zone)
            (⟨[], []⟩ : DedupState)) := by
          refine foldlPreserves ?_ epss (⟨[], []⟩ : DedupState) ⟨by simp, by simp⟩
          intro st eps hst
          exact dedupInv_processSlice port proto _ zone st eps hst
        have hnd : ((epss.foldl (processSlice port proto
            (s.trafficDistribution = some serviceTrafficDistributionPreferClose) zone)
            (⟨[], []⟩ : DedupState)).upsServers.map endpointKey).Pairwise
            (fun a b => a ≠ b) := hinv.2
        rw [List.pairwise_map] at hnd
        exact hnd.imp (fun hab hcon => hab (by
          simp only [endpointKey, hcon.1, hcon.2]))

/-! C6: path normalization and splitting of updateServerLocations. -/

/-- Helper: membership in the Exact-path list. -/
theorem mem_exactPathsOf (p : String) (locations : List Location) :
    p ∈ exactPathsOf locations ↔
      ∃ l ∈ locations, l.pathType = some PathType.exact ∧ l.path = p := by
  simp only [exactPathsOf, List.mem_map, List.mem_filter]
  constructor
  · rintro ⟨l, ⟨hmem, hty⟩, hp⟩
    exact ⟨l, hmem, by simpa using hty, hp⟩
  · rintro ⟨l, hmem, hty, hp⟩
    exact ⟨l, ⟨hmem, by simpa using hty⟩, hp⟩

/-- C6: updateServerLocations processes each location against the Exact
paths of the whole list; a root location is emitted unchanged; a
non-root Prefix location with no rewrite target, no regex flag and no
Exact location at its path is split into the trailing-slash-normalized
Prefix location plus a sibling Exact location at the unmodified path;
with a colliding Exact location only the trailing-slash normalization is
applied. -/
theorem C6_updateServerLocations_split (locations : List Location) (loc : Location) :
    updateServerLocations locations =
        locations.flatMap (updateOneLocation (exactPathsOf locations)) ∧
      (loc.path = rootLocation → updateOneLocation (exactPathsOf locations) loc = [loc]) ∧
      (loc.path ≠ rootLocation → loc.pathType = some PathType.prefixT →
        loc.rewrite.target = "" → loc.rewrite.useRegex = false →
        (¬ ∃ l ∈ locations, l.pathType = some PathType.exact ∧ l.path = loc.path) →
        updateOneLocation (exactPathsOf locations) loc =
          [{ loc with ingressPath := loc.path, path := normalizePrefixPath loc.path },
           { loc with ingressPath := loc.path, pathType := some PathType.exact }]) ∧
      (loc.path ≠ rootLocation → loc.pathType = some PathType.prefixT →
        loc.rewrite.target = "" → loc.rewrite.useRegex = false →
        (∃ l ∈ locations, l.pathType = some PathType.exact ∧ l.path = loc.path) →
        updateOneLocation (exactPathsOf locations) loc =
          [{ loc with ingressPath := loc.path, path := normalizePrefixPath loc.path }]) := by
  refine ⟨rfl, ?_, ?_, ?_⟩
  · intro h
    simp [updateOneLocation, h]
  · intro h1 h2 h3 h4 h5
    have hnr : ∀ l' : Location, l'.rewrite.target = "" → needsRewrite l' = false := by
      intro l' hl'
      simp [needsRewrite, hl']
    have hmem : loc.path ∉ exactPathsOf locations := fun hm =>
      h5 ((mem_exactPathsOf loc.path locations).mp hm)
    simp [updateOneLocation, h1, h2, h3, h4, hnr, hmem]
  · intro h1 h2 h3 h4 h5
    have hnr : ∀ l' : Location, l'.rewrite.target = "" → needsRewrite l' = false := by
      intro l' hl'
      simp [needsRewrite, hl']
    have hmem : loc.path ∈ exactPathsOf locations :=
      (mem_exactPathsOf loc.path locations).mpr h5
    simp [updateOneLocation, h1, h2, h3, h4, hnr, hmem]

/-- A bare Prefix location at /api with no rewrite configuration. -/
def locApi : Location :=
  { path := "/api", pathType := some PathType.prefixT, isDefBackend := false, ingress := none
    ingressPath := "", backend := "b", service := none, port := IntOrString.int 0
    rewrite := { target := "", useRegex := false }, redirect := { fromToWWW := false }
    defaultBackend := none, defaultBackendUpstreamName := "" }

/-- C6 witness: Prefix /api with no rewrite, no regex and no Exact
sibling normalizes to Prefix /api/ plus Exact /api. -/
theorem C6_updateServerLocations_split_witness :
    updateServerLocations [locApi] =
      [{ locApi with ingressPath := "/api", path := "/api/" },
       { locApi with ingressPath := "/api", pathType := some PathType.exact }] := by
  have h := C6_updateServerLocations_split [locApi] locApi
  rw [h.1]
  rw [List.flatMap_cons]
  rw [h.2.2.1 (by decide) rfl rfl rfl (by decide)]
  have hn : normalizePrefixPath "/api" = "/api/" := by decide
  simp [hn, locApi]

/-! C9: stream-service synthesis. -/

/-- C9: getStreamServices is sorted by external port ascending; an entry
whose key does not parse as an integer or parses into the reserved set
is skipped; a surviving entry has non-empty endpoints, carries its
parsed external port, and is not reserved; and with a readable configmap
the result is exactly (a permutation of) the processed surviving
entries. -/
theorem C9_getStreamServices_spec (n : Controller) (cmName : String) (proto : Protocol) :
    (getStreamServices n cmName proto).Pairwise (fun a b => a.port ≤ b.port) ∧
      (∀ entry : String × String,
        (goAtoi entry.1 = none ∨ ∃ p, goAtoi entry.1 = some p ∧ p ∈ reservedPortsOf n) →
        processStreamEntry n proto (reservedPortsOf n) entry = none) ∧
      (∀ entry l4, processStreamEntry n proto (reservedPortsOf n) entry = some l4 →
        l4.endpoints ≠ [] ∧ goAtoi entry.1 = some l4.port ∧ l4.port ∉ reservedPortsOf n) ∧
      (∀ cm, cmName ≠ "" → (parseNameNS cmName).isSome →
        n.store.getConfigMap cmName = .ok cm →
        (getStreamServices n cmName proto).Perm
          (cm.data.filterMap (processStreamEntry n proto (reservedPortsOf n)))) := by
  have htrans : ∀ a b c : L4Service, (decide (a.port ≤ b.port)) = true →
      (decide (b.port ≤ c.port)) = true → (decide (a.port ≤ c.port)) = true := by
    intro a b c hab hbc
    simp only [decide_eq_true_eq] at *
    omega
  have htotal : ∀ a b : L4Service,
      ((decide (a.port ≤ b.port)) || (decide (b.port ≤ a.port))) = true := by
    intro a b
    simpa using Int.le_total a.port b.port
  refine ⟨?_, ?_, ?_, ?_⟩
  · unfold getStreamServices
    split
    · exact List.Pairwise.nil
    · split
      · exact List.Pairwise.nil
      · split
        · exact List.Pairwise.nil
        · exact (List.sorted_mergeSort htrans htotal _).imp (fun hab => by
            simpa using hab)
  · intro entry hbad
    unfold processStreamEntry
    rcases hbad with hnone | ⟨p, hp, hmem⟩
    · rw [hnone]
    · rw [hp]
      dsimp only
      rw [if_pos (List.elem_iff.mpr hmem)]
  · intro entry l4 h
    unfold processStreamEntry at h
    cases hA : goAtoi entry.1 with
    | none =>
      rw [hA] at h
      exact absurd h (by simp)
    | some p =>
      simp only [hA] at h
      by_cases hr : (reservedPortsOf n).contains p = true
      · rw [if_pos hr] at h
        exact absurd h (by simp)
      · rw [if_neg hr] at h
        by_cases hlen : (splitOnChar ':' entry.2).length < 2
        · rw [if_pos hlen] at h
          exact absurd h (by simp)
        · rw [if_neg hlen] at h
          cases hpn : parseNameNS ((splitOnChar ':' entry.2).getD 0 "") with
          | none =>
            rw [hpn] at h
            exact absurd h (by simp)
          | some nsw =>
            obtain ⟨svcNs, svcName⟩ := nsw
            simp only [hpn] at h
            cases hsv : n.store.getService ((splitOnChar ':' entry.2).getD 0 "") with
            | error e =>
              simp only [hsv] at h
              exact absurd h (by simp)
            | ok svc =>
              simp only [hsv] at h
              by_cases he : (resolveStreamEndpoints n proto svc
                  ((splitOnChar ':' entry.2).getD 1 "")).isEmpty = true
              · rw [if_pos he] at h
                exact absurd h (by simp)
              · rw [if_neg he] at h
                rw [Option.some.injEq] at h
                subst h
                refine ⟨?_, rfl, ?_⟩
                · intro hempty
                  have hx : resolveStreamEndpoints n proto svc
                      ((splitOnChar ':' entry.2).getD 1 "") = [] := hempty
                  exact he (by rw [hx]; rfl)
                · intro hmem
                  exact hr (List.elem_iff.mpr hmem)
  · intro cm hname hsome hok
    unfold getStreamServices
    rw [if_neg hname]
    cases hpn : parseNameNS cmName with
    | none =>
      rw [hpn] at hsome
      exact absurd hsome (by simp)
    | some nsw =>
      rw [hok]
      exact List.mergeSort_perm _ _

/-- A TCP service port 5000 with numeric target 5000. -/
def portStream : ServicePort :=
  { name := "", port := 5000, protocol := Protocol.TCP, targetPort := IntOrString.int 5000 }

def svcStream : Service :=
  { ns := "default", name := "svc", serviceType := ServiceType.clusterIP, externalName := ""
    trafficDistribution := none, ports := [portStream] }

def sliceStream : EndpointSlice :=
  { ports := [], endpoints := [epUnhinted "10.1.1.1"] }

/-- A stream configmap with one invalid key, one reserved key (the
health port) and two valid entries, deliberately out of order. -/
def cmStream : ConfigMap :=
  { data := [("9001", "default/svc:5000"), ("abc", "default/svc:5000"),
             ("10254", "default/svc:5000"), ("9000", "default/svc:5000")] }

def storeStream : Store :=
  { getService := fun k => if k = "default/svc" then .ok svcStream else .error "no service"
    getConfigMap := fun k => if k = "default/tcp" then .ok cmStream else .error "no configmap"
    getServiceEndpointsSlices := fun k =>
      if k = "default/svc" then .ok [sliceStream] else .error "no slices" }

def ctrlStream : Controller := ctrlOf (cfgOf "" "default/tcp" "") storeStream

/-- C9 witness: the concrete configmap above survives the skip rules and
yields exactly its two valid entries. -/
theorem C9_getStreamServices_spec_witness :
    (getStreamServices ctrlStream "default/tcp" Protocol.TCP).Perm
      (cmStream.data.filterMap
        (processStreamEntry ctrlStream Protocol.TCP (reservedPortsOf ctrlStream))) :=
  (C9_getStreamServices_spec ctrlStream "default/tcp" Protocol.TCP).2.2.2 cmStream
    (by decide) (by decide) rfl

/-! C5: the location merge of getBackendServers. -/

/-- Helper: a successful find? splits the list at the first hit. -/
theorem exists_split_of_find?_eq_some {α : Type} {p : α → Bool} {l : List α} {a : α}
    (h : l.find? p = some a) :
    ∃ pre post, l = pre ++ a :: post ∧ ∀ x ∈ pre, ¬ p x = true := by
  induction l with
  | nil => cases h
  | cons b rest ih =>
    by_cases hb : p b = true
    · rw [List.find?_cons_of_pos rest hb] at h
      rw [Option.some.injEq] at h
      subst h
      exact ⟨[], rest, rfl, by simp⟩
    · rw [List.find?_cons_of_neg rest hb] at h
      obtain ⟨pre, post, heq, hpre⟩ := ih h
      refine ⟨b :: pre, post, by simp [heq], ?_⟩
      intro x hx
      rcases List.mem_cons.mp hx with rfl | hx1
      · exact hb
      · exact hpre x hx1

/-- Helper: mergeScan leaves the list unchanged and reports the add case
when no location carries the probed path. -/
theorem mergeScan_of_not_found (p : String) (pt : Option PathType) (ov : Location → Location)
    (locs : List Location) (h : ∀ l ∈ locs, l.path ≠ p) :
    mergeScan p pt ov locs = (locs, MergeCase.addCase) := by
  induction locs with
  | nil => rfl
  | cons l rest ih =>
    have h1 : l.path ≠ p := h l (by simp)
    unfold mergeScan
    rw [if_pos h1]
    rw [ih (fun x hx => h x (by simp [hx]))]

/-- Helper: mergeScan stops at the first location carrying the probed
path and decides by its path-type and default-backend flag alone. -/
theorem mergeScan_of_found (p : String) (pt : Option PathType) (ov : Location → Location)
    (pre : List Location) (loc : Location) (post : List Location)
    (hpre : ∀ l ∈ pre, l.path ≠ p) (hloc : loc.path = p) :
    mergeScan p pt ov (pre ++ loc :: post) =
      if loc.pathType ≠ pt then (pre ++ loc :: post, MergeCase.addCase)
      else if ¬ loc.isDefBackend then (pre ++ loc :: post, MergeCase.ignoreCase)
      else (pre ++ ov loc :: post, MergeCase.overwriteCase) := by
  induction pre with
  | nil =>
    simp only [List.nil_append]
    unfold mergeScan
    rw [if_neg (by simp [hloc])]
  | cons a pre ih =>
    have ha : a.path ≠ p := hpre a (by simp)
    simp only [List.cons_append]
    unfold mergeScan
    rw [if_pos ha]
    rw [ih (fun x hx => hpre x (by simp [hx]))]
    by_cases h1 : loc.pathType ≠ pt
    · simp [h1]
    · by_cases h2 : ¬ loc.isDefBackend
      · simp [h1, h2]
      · simp [h1, h2]

/-- Helper: the redirect settings of the freshly built location are the
annotation settings. -/
theorem mergedNewLocation_redirect (p : String) (pt : Option PathType) (ups : Backend)
    (ing : Ingress) (anns : IngressAnns) :
    (mergedNewLocation p pt ups ing anns).redirect = anns.redirect := rfl

/-- C5 (amended): the merge inspects only the first location whose path
equals the contribution's path. With no such location the new location
is appended; if the first one differs in path-type the new location is
appended even when a same-type location exists later in the list; if it
has the same type and still points at the default backend it alone is
overwritten in place with the redirect flag propagated; if it has the
same type and a non-default backend the contribution is ignored. -/
theorem C5_merge_first_match (server : Server) (p : String) (pt : Option PathType)
    (ups : Backend) (ing : Ingress) (anns : IngressAnns) :
    (server.locations.find? (fun l => decide (l.path = p)) = none →
      mergeLocationIntoServer server p pt ups ing anns =
        { server with
          locations := server.locations ++ [mergedNewLocation p pt ups ing anns]
          redirectFromToWWW :=
            if anns.redirect.fromToWWW then true else server.redirectFromToWWW }) ∧
    (∀ loc, server.locations.find? (fun l => decide (l.path = p)) = some loc →
      ((loc.pathType ≠ pt →
        mergeLocationIntoServer server p pt ups ing anns =
          { server with
            locations := server.locations ++ [mergedNewLocation p pt ups ing anns]
            redirectFromToWWW :=
              if anns.redirect.fromToWWW then true else server.redirectFromToWWW }) ∧
       (loc.pathType = pt → loc.isDefBackend = false →
        mergeLocationIntoServer server p pt ups ing anns = server) ∧
       (loc.pathType = pt → loc.isDefBackend = true →
        ∃ pre post, server.locations = pre ++ loc :: post ∧ (∀ l ∈ pre, l.path ≠ p) ∧
          mergeLocationIntoServer server p pt ups ing anns =
            { server with
              locations := pre ++ overwriteLocation ups ing anns loc :: post
              redirectFromToWWW :=
                if anns.redirect.fromToWWW then true else server.redirectFromToWWW }))) := by
  constructor
  · intro hnone
    have hall : ∀ l ∈ server.locations, l.path ≠ p := by
      intro l hl
      simpa using List.find?_eq_none.mp hnone l hl
    unfold mergeLocationIntoServer
    dsimp only
    rw [mergeScan_of_not_found p pt (overwriteLocation ups ing anns) server.locations hall]
    rfl
  · intro loc hfind
    have hlocp : loc.path = p := by simpa using List.find?_some hfind
    obtain ⟨pre, post, heq, hpre⟩ := exists_split_of_find?_eq_some hfind
    have hpre1 : ∀ l ∈ pre, l.path ≠ p := fun l hl => by simpa using hpre l hl
    refine ⟨?_, ?_, ?_⟩
    · intro hty
      unfold mergeLocationIntoServer
      dsimp only
      rw [heq, mergeScan_of_found p pt (overwriteLocation ups ing anns) pre loc post hpre1 hlocp]
      rw [if_pos hty]
      rw [← heq]
      rfl
    · intro hty hdef
      unfold mergeLocationIntoServer
      dsimp only
      rw [heq, mergeScan_of_found p pt (overwriteLocation ups ing anns) pre loc post hpre1 hlocp]
      rw [if_neg (by simp [hty]), if_pos (by simp [hdef])]
      rw [← heq]
    · intro hty hdef
      refine ⟨pre, post, heq, hpre1, ?_⟩
      unfold mergeLocationIntoServer
      dsimp only
      rw [heq, mergeScan_of_found p pt (overwriteLocation ups ing anns) pre loc post hpre1 hlocp]
      rw [if_neg (by simp [hty]), if_neg (by simp [hdef])]

/-- A non-default Exact location at /a bound to backend b1. -/
def locCexA : Location :=
  { path := "/a", pathType := some PathType.exact, isDefBackend := false, ingress := none
    ingressPath := "", backend := "b1", service := none, port := IntOrString.int 0
    rewrite := { target := "", useRegex := false }, redirect := { fromToWWW := false }
    defaultBackend := none, defaultBackendUpstreamName := "" }

/-- A non-default Prefix location at /a bound to backend b2. -/
def locCexB : Location := { locCexA with pathType := some PathType.prefixT, backend := "b2" }

def serverCex : Server :=
  { hostname := "h", sslPassthrough := false, redirectFromToWWW := false, aliases := []
    locations := [locCexA, locCexB] }

def upsCex : Backend :=
  { name := "b3", service := none, port := IntOrString.int 0, sslPassthrough := false
    endpoints := [], noServer := false }

def ingCex : Ingress := { ns := "default", name := "cex", parsedAnns := annsOfSnippet "" }

/-- C5 counterexample: the server already has a Prefix location at /a
with a non-default backend, so the claim says a later Prefix
contribution at /a is ignored; the merge instead stops at the first /a
location (the Exact one), sees a different path-type, and appends a
third location. -/
theorem C5_counterexample :
    (∃ l ∈ serverCex.locations, l.path = "/a" ∧ l.pathType = some PathType.prefixT ∧
        l.isDefBackend = false) ∧
      mergeLocationIntoServer serverCex "/a" (some PathType.prefixT) upsCex ingCex
          (annsOfSnippet "") ≠ serverCex ∧
      (mergeLocationIntoServer serverCex "/a" (some PathType.prefixT) upsCex ingCex
          (annsOfSnippet "")).locations.length = 3 := by
  refine ⟨?_, ?_, ?_⟩
  · decide
  · decide
  · decide

/-- C5 witness: the first-match rule at a concrete server — the first /a
location is Exact with a non-default backend, so an Exact contribution
at /a is ignored and the server is unchanged. -/
theorem C5_merge_first_match_witness :
    mergeLocationIntoServer serverCex "/a" (some PathType.exact) upsCex ingCex
      (annsOfSnippet "") = serverCex :=
  ((C5_merge_first_match serverCex "/a" (some PathType.exact) upsCex ingCex
      (annsOfSnippet "")).2 locCexA (by decide)).2.1 (by decide) (by decide)

/-! C2: SSL-passthrough aggregation in the post-merge pass. -/

/-- Helper: a custom default-backend clone name never collides with the
reserved default upstream name. -/
theorem customName_ne_defUpstreamName (a b : String) :
    ("custom-default-backend-" ++ a ++ "-" ++ b) ≠ defUpstreamName := by
  intro hcontra
  have h2 := congrArg String.data hcontra
  simp only [String.data_append, defUpstreamName] at h2
  simp at h2

/-- Helper: a fold that appends one mapped element, appends produced
clones, and ors one flag per element equals map, flatMap and any. -/
theorem foldl_collect {α β γ : Type} (f : α → β) (g : α → List γ) (q : α → Bool) :
    ∀ (l : List α) (acc : List β × List γ × Bool),
      l.foldl (fun acc a => (acc.1 ++ [f a], acc.2.1 ++ g a, acc.2.2 || q a)) acc =
        (acc.1 ++ l.map f, acc.2.1 ++ l.flatMap g, acc.2.2 || l.any q) := by
  intro l
  induction l with
  | nil => intro acc; simp
  | cons a rest ih =>
    intro acc
    simp only [List.foldl_cons, ih, List.map_cons, List.flatMap_cons, List.any_cons]
    simp [List.append_assoc, Bool.or_assoc]

/-- Helper: the server step of the post-merge pass maps the locations,
collects the clones, and ors the per-location passthrough flags. -/
theorem processServerForUpstream_eq (n : Controller) (u : Backend) (server : Server) :
    processServerForUpstream n u server =
      ({ server with locations := server.locations.map (fun loc => (processLocationForUpstream n u server.sslPassthrough loc).loc) },
       server.locations.flatMap
         (fun loc => (processLocationForUpstream n u server.sslPassthrough loc).clones),
       server.locations.any
         (fun loc => (processLocationForUpstream n u server.sslPassthrough loc).https)) := by
  unfold processServerForUpstream
  dsimp only
  rw [foldl_collect (fun loc => (processLocationForUpstream n u server.sslPassthrough loc).loc)
      (fun loc => (processLocationForUpstream n u server.sslPassthrough loc).clones)
      (fun loc => (processLocationForUpstream n u server.sslPassthrough loc).https)
      server.locations (([] : List Location), ([] : List Backend), false)]
  simp

/-- Helper: the upstream step of the post-merge pass for a non-default
upstream: the upstream (marked when some processed server recorded the
passthrough flag) followed by the clones, with the mapped servers. -/
theorem processUpstream_eq (n : Controller) (u : Backend) (servers : List Server)
    (hname : ¬ u.name = defUpstreamName) :
    processUpstream n u servers =
      ((if servers.any (fun s => (processServerForUpstream n u s).2.2) then
          { u with sslPassthrough := true } else u) ::
        servers.flatMap (fun s => (processServerForUpstream n u s).2.1),
       servers.map (fun s => (processServerForUpstream n u s).1)) := by
  unfold processUpstream
  rw [if_neg hname]
  dsimp only
  rw [foldl_collect (fun s => (processServerForUpstream n u s).1)
      (fun s => (processServerForUpstream n u s).2.1)
      (fun s => (processServerForUpstream n u s).2.2)
      servers (([] : List Server), ([] : List Backend), false)]
  simp

/-- Helper: a location whose backend does not name the upstream is left
untouched and records nothing. -/
theorem processLocation_skip (n : Controller) (v : Backend) (sp : Bool) (loc : Location)
    (hvne : v.name ≠ loc.backend) :
    processLocationForUpstream n v sp loc = ⟨loc, [], false⟩ := by
  unfold processLocationForUpstream
  rw [if_pos (by simp [shouldCreateUpstreamForLocationDefaultBackend, hvne])]

/-- Helper: a root location that names the upstream, carries a
default-backend override with at least one port, and sits on a
passthrough server records the passthrough flag. -/
theorem processLocation_https (n : Controller) (u : Backend) (loc : Location) (db : Service)
    (hb : loc.backend = u.name) (hdb : loc.defaultBackend = some db) (hports : db.ports ≠ [])
    (hroot : loc.path = rootLocation) (hname : u.name ≠ defUpstreamName) :
    (processLocationForUpstream n u true loc).https = true := by
  have hgate : shouldCreateUpstreamForLocationDefaultBackend u loc = true := by
    simp [shouldCreateUpstreamForLocationDefaultBackend, hb, hdb]
  unfold processLocationForUpstream
  rw [if_neg (not_not_intro hgate)]
  simp only [hdb]
  cases hp : db.ports with
  | nil => exact absurd hp hports
  | cons sp rest =>
    simp only [hp]
    by_cases hemp : (resolveCustomDefaultEndpoints n db sp).isEmpty = true
    · rw [if_neg (not_not_intro hemp)]
      dsimp only
      rw [if_pos trivial, if_pos hroot, if_neg (by rw [hb]; exact hname)]
    · rw [if_pos hemp]
      dsimp only
      rw [if_pos trivial, if_pos hroot]
      by_cases hue : u.endpoints.isEmpty = true
      · rw [if_pos hue]
        rw [if_neg (customName_ne_defUpstreamName db.ns db.name)]
      · rw [if_neg hue]
        rw [if_neg (by rw [hb]; exact hname)]

/-- The invariant threaded through the pass: some passthrough server
still holds the observed location. -/
def PassthroughRootState (loc : Location) (servers : List Server) : Prop :=
  ∃ server ∈ servers, server.sslPassthrough = true ∧ loc ∈ server.locations

/-- Helper: an upstream named by a root location on a passthrough server
in the current state comes out of its own step marked. -/
theorem processUpstream_marks (n : Controller) (u : Backend) (servers : List Server)
    (loc : Location) (db : Service)
    (hb : loc.backend = u.name) (hdb : loc.defaultBackend = some db) (hports : db.ports ≠ [])
    (hroot : loc.path = rootLocation) (hname : u.name ≠ defUpstreamName)
    (hP : PassthroughRootState loc servers) :
    ∃ b ∈ (processUpstream n u servers).1, b.name = u.name ∧ b.sslPassthrough = true := by
  obtain ⟨server, hs, hpass, hl⟩ := hP
  rw [processUpstream_eq n u servers hname]
  have hserver : (processServerForUpstream n u server).2.2 = true := by
    rw [processServerForUpstream_eq]
    dsimp only
    rw [List.any_eq_true]
    refine ⟨loc, hl, ?_⟩
    rw [hpass]
    exact processLocation_https n u loc db hb hdb hports hroot hname
  have hany : servers.any (fun s => (processServerForUpstream n u s).2.2) = true := by
    rw [List.any_eq_true]
    exact ⟨server, hs, hserver⟩
  rw [if_pos hany]
  exact ⟨{ u with sslPassthrough := true }, by simp, rfl, rfl⟩

/-- Helper: an upstream that does not name the location's backend leaves
the invariant intact. -/
theorem processUpstream_preserves (n : Controller) (v : Backend) (loc : Location)
    (servers : List Server) (hvne : v.name ≠ loc.backend)
    (hP : PassthroughRootState loc servers) :
    PassthroughRootState loc (processUpstream n v servers).2 := by
  obtain ⟨server, hs, hpass, hl⟩ := hP
  by_cases hd : v.name = defUpstreamName
  · unfold processUpstream
    rw [if_pos hd]
    exact ⟨server, hs, hpass, hl⟩
  · rw [processUpstream_eq n v servers hd]
    dsimp only
    refine ⟨(processServerForUpstream n v server).1, List.mem_map.mpr ⟨server, hs, rfl⟩, ?_, ?_⟩
    · rw [processServerForUpstream_eq]
      exact hpass
    · rw [processServerForUpstream_eq]
      dsimp only
      refine List.mem_map.mpr ⟨loc, hl, ?_⟩
      rw [processLocation_skip n v server.sslPassthrough loc hvne]

/-- C2 (amended): in the post-merge pass, a non-default Backend that is
the backend of a root-path location carrying a custom default-backend
override (for this backend, with at least one declared port) on a
passthrough server comes out with SSLPassthrough set — the marking is
gated by the custom default-backend guard, so root locations without an
override never mark their backend. Distinct backend names are the §3
invariant. -/
theorem C2_passthrough_marking (n : Controller) (upstreams : List Backend)
    (servers : List Server) (u : Backend) (server : Server) (loc : Location) (db : Service)
    (hnodup : upstreams.Pairwise (fun a b => a.name ≠ b.name))
    (hu : u ∈ upstreams) (hname : u.name ≠ defUpstreamName)
    (hs : server ∈ servers) (hpass : server.sslPassthrough = true) (hl : loc ∈ server.locations)
    (hroot : loc.path = rootLocation) (hb : loc.backend = u.name)
    (hdb : loc.defaultBackend = some db) (hports : db.ports ≠ []) :
    ∃ b ∈ (postMergeUpstreamPass n upstreams servers).1,
      b.name = u.name ∧ b.sslPassthrough = true := by
  have hP : PassthroughRootState loc servers := ⟨server, hs, hpass, hl⟩
  clear hs hpass hl
  induction upstreams generalizing servers with
  | nil => cases hu
  | cons v rest ih =>
    rcases List.mem_cons.mp hu with rfl | hmem
    · obtain ⟨b, hbmem, hbn, hbs⟩ :=
        processUpstream_marks n u servers loc db hb hdb hports hroot hname hP
      refine ⟨b, ?_, hbn, hbs⟩
      show b ∈ (postMergeUpstreamPass n (u :: rest) servers).1
      unfold postMergeUpstreamPass
      dsimp only
      exact List.mem_append.mpr (Or.inl hbmem)
    · have hvne : v.name ≠ loc.backend := by
        rw [hb]
        exact (List.pairwise_cons.mp hnodup).1 u hmem
      obtain ⟨b, hbmem, hbn, hbs⟩ :=
        ih (processUpstream n v servers).2 (List.pairwise_cons.mp hnodup).2 hmem
          (processUpstream_preserves n v loc servers hvne hP)
      refine ⟨b, ?_, hbn, hbs⟩
      unfold postMergeUpstreamPass
      dsimp only
      exact List.mem_append.mpr (Or.inr hbmem)

def epFix : Endpoint := { address := "10.2.2.2", port := "80", target := none }

def upsC2 : Backend :=
  { name := "b", service := none, port := IntOrString.int 0, sslPassthrough := false
    endpoints := [epFix], noServer := false }

/-- A root location bound to backend b, with no default-backend override. -/
def locC2 : Location :=
  { path := "/", pathType := some PathType.prefixT, isDefBackend := false, ingress := none
    ingressPath := "", backend := "b", service := none, port := IntOrString.int 0
    rewrite := { target := "", useRegex := false }, redirect := { fromToWWW := false }
    defaultBackend := none, defaultBackendUpstreamName := "" }

def srvC2 : Server :=
  { hostname := "h", sslPassthrough := true, redirectFromToWWW := false, aliases := []
    locations := [locC2] }

def ctrlC2 : Controller := ctrlOf (cfgOf "" "" "") storeEmpty

/-- C2 counterexample: backend b is the backend of the root location of
a passthrough server, yet the pass leaves it unmarked, because the root
location carries no custom default-backend override and the passthrough
check is nested behind that guard. -/
theorem C2_counterexample :
    srvC2.sslPassthrough = true ∧ locC2 ∈ srvC2.locations ∧ locC2.path = rootLocation ∧
      locC2.backend = upsC2.name ∧ upsC2.name ≠ defUpstreamName ∧
      (postMergeUpstreamPass ctrlC2 [upsC2] [srvC2]).1 = [upsC2] ∧
      upsC2.sslPassthrough = false := by
  decide

def dbW : Service :=
  { ns := "default", name := "dbsvc", serviceType := ServiceType.clusterIP, externalName := ""
    trafficDistribution := none, ports := [portNum80] }

def locW : Location := { locC2 with defaultBackend := some dbW }

def srvW : Server := { srvC2 with locations := [locW] }

/-- C2 witness: with the default-backend override present the amended
marking holds at a concrete input. -/
theorem C2_passthrough_marking_witness :
    ∃ b ∈ (postMergeUpstreamPass ctrlC2 [upsC2] [srvW]).1,
      b.name = upsC2.name ∧ b.sslPassthrough = true :=
  C2_passthrough_marking ctrlC2 [upsC2] [srvW] upsC2 srvW locW dbW
    (by simp) (by simp) (by decide) (by simp) (by decide) (by decide)
    (by decide) (by decide) (by decide) (by decide)

end IngressCfg

